import Mathlib

/-
Verification of the zerocopy layout-and-cast engine.

This file shallowly embeds the casting procedures of the repository's two
source files (src/lib.rs and src/ref.rs) and proves properties about them.

Modelling conventions:
  * A byte slice (Rust `B: ByteSlice`) is a `BSlice`: an address plus the
    list of its bytes.  Dereference stability is automatic (pure values).
  * Rust snake_case names are rendered in camelCase (e.g. `sized_from_prefix`
    becomes `sizedFromPrefix`).
  * `usize` arithmetic is `Nat` arithmetic guarded by `usizeMax = 2^64 - 1`;
    `checked_mul` / `checked_add` return `none` above that bound.
  * Fallible Rust functions are embedded as functions into explicit result
    inductives; a reachable `unreachable!()` / panic is a distinguished
    `panicked` (resp. `halts`) outcome.
  * Code of the repository that lives outside the two provided files
    (`util.rs`, `wrappers.rs`, the `pointer` module) is modelled from the
    spec; every such definition carries a doc comment starting with
    `Modelled from the spec:`.
-/

namespace Zerocopy

/-- A byte slice: the address of its first byte plus its bytes.  Embeds the
Rust `ByteSlice` abstraction (a contiguous region with stable address and
length); bytes are `Nat`s (values < 256 in practice). -/
structure BSlice where
  addr : Nat
  data : List Nat
deriving DecidableEq, Repr

/-- Embeds `SizeInfo` from the layout model: either a fixed size, or the
offset and element size of a trailing slice. -/
inductive SizeInfo where
  | sized (size : Nat)
  | sliceDst (offset elemSize : Nat)
deriving DecidableEq, Repr

/-- Embeds `DstLayout`: an alignment together with a `SizeInfo`. -/
structure DstLayout where
  align : Nat
  size_info : SizeInfo
deriving DecidableEq, Repr

/-- Embeds `CastType` (the cast mode): `Exact`, `Prefix`, or `Suffix`. -/
inductive CastType where
  | Exact
  | Prefix
  | Suffix
deriving DecidableEq, Repr

/-- Result of a cast operation, flattening Rust's
`Result<A, CastError<B, T>>`: success, or one of the three error kinds, each
carrying back a byte slice (the `src` the error was constructed from). -/
inductive CastResult (A : Type) where
  | ok (a : A)
  | sizeErr (src : BSlice)
  | alignmentErr (src : BSlice)
  | validityErr (src : BSlice)
deriving DecidableEq, Repr

/-- Result of `try_split_at` (src/lib.rs line 5472):
`Ok((slice[..mid], slice[mid..]))` or `Err(slice)`. -/
inductive SplitResult where
  | ok (first second : BSlice)
  | err (src : BSlice)
deriving DecidableEq, Repr

/-- Modelled from the spec: `util::aligned_to` lives in `util.rs`, which is
not under src/.  Spec step 4 of `try_cast`: check
`candidate.address() mod layout.alignment == 0`. -/
def alignedTo (addr align : Nat) : Bool :=
  addr % align == 0

/-- Embeds `try_split_at` (src/lib.rs lines 5472-5487): if
`mid <= slice.len()` split into `(slice[..mid], slice[mid..])`, else return
the whole slice as the error payload. -/
def trySplitAt (b : BSlice) (mid : Nat) : SplitResult :=
  if mid ≤ b.data.length then
    .ok ⟨b.addr, b.data.take mid⟩ ⟨b.addr + mid, b.data.drop mid⟩
  else
    .err b

/-- Embeds `Ref::sized_from` (src/ref.rs lines 211-221) for a sized target
type of the given size and alignment: reject with `SizeError` when
`bytes.len() != size_of::<T>()`, then with `AlignmentError` when the address
is misaligned, else succeed with the validated slice. -/
def sizedFrom (size align : Nat) (b : BSlice) : CastResult BSlice :=
  if b.data.length ≠ size then .sizeErr b
  else if !alignedTo b.addr align then .alignmentErr b
  else .ok b

/-- Embeds `Ref::sized_from_prefix` (src/ref.rs lines 229-245): reject with
`SizeError` when `bytes.len() < size_of::<T>()`, then with `AlignmentError`
when the start address is misaligned, then split at `size_of::<T>()` and
return (matched prefix, remaining suffix). -/
def sizedFromPrefix (size align : Nat) (b : BSlice) : CastResult (BSlice × BSlice) :=
  if b.data.length < size then .sizeErr b
  else if !alignedTo b.addr align then .alignmentErr b
  else
    match trySplitAt b size with
    | .err s => .sizeErr s
    | .ok first second => .ok (first, second)

/-- Embeds `Ref::sized_from_suffix` (src/ref.rs lines 247-268): compute
`split_at = bytes.len() - size_of::<T>()` by checked subtraction (`SizeError`
on underflow), split there, then reject with `AlignmentError` — carrying the
split-off suffix `bytes`, exactly as the source does — when the suffix
address is misaligned, else return (remaining prefix, matched suffix). -/
def sizedFromSuffix (size align : Nat) (b : BSlice) : CastResult (BSlice × BSlice) :=
  if size ≤ b.data.length then
    match trySplitAt b (b.data.length - size) with
    | .err s => .sizeErr s
    | .ok first second =>
      if !alignedTo second.addr align then .alignmentErr second
      else .ok (first, second)
  else .sizeErr b

/-- C1: for every cast of a sized type in exact (`sized_from`), prefix
(`sized_from_prefix`) or suffix (`sized_from_suffix`) mode, size is checked
before alignment: an input that is both of insufficient/wrong length and
misaligned yields a `SizeError`, never an `AlignmentError`. -/
theorem size_before_alignment (size align : Nat) (b : BSlice)
    (hmis : alignedTo b.addr align = false) :
    (b.data.length ≠ size → sizedFrom size align b = .sizeErr b)
    ∧ (b.data.length < size → sizedFromPrefix size align b = .sizeErr b)
    ∧ (b.data.length < size → sizedFromSuffix size align b = .sizeErr b) := by
  refine ⟨fun h => ?_, fun h => ?_, fun h => ?_⟩
  · simp [sizedFrom, h]
  · simp [sizedFromPrefix, h]
  · simp [sizedFromSuffix, Nat.not_le.mpr h]

/-- Witness for C1: a 1-byte buffer at odd address 1 cast to a 2-byte,
2-aligned target is both too short and misaligned; all three modes yield
`SizeError` carrying the input back. -/
theorem size_before_alignment_witness :
    alignedTo 1 2 = false
    ∧ sizedFrom 2 2 ⟨1, [7]⟩ = .sizeErr ⟨1, [7]⟩
    ∧ sizedFromPrefix 2 2 ⟨1, [7]⟩ = .sizeErr ⟨1, [7]⟩
    ∧ sizedFromSuffix 2 2 ⟨1, [7]⟩ = .sizeErr ⟨1, [7]⟩ := by
  have h := size_before_alignment 2 2 ⟨1, [7]⟩ (by decide)
  exact ⟨by decide, h.1 (by decide), h.2.1 (by decide), h.2.2 (by decide)⟩

/-- Two byte regions are disjoint when one ends at or before the other
begins. -/
def disjointRegions (x y : BSlice) : Bool :=
  decide (x.addr + x.data.length ≤ y.addr) || decide (y.addr + y.data.length ≤ x.addr)

/-- C4 (amended): for a buffer of length `L` and required size `S ≤ L`, with
the respective alignment checks passing, a prefix-mode cast returns matched
bytes `[0,S)` and remainder `[S,L)`, and a suffix-mode cast returns
remainder `[0,L-S)` and matched bytes `[L-S,L)`; for `L = 2*S` with `S > 0`
the two matched regions are different and non-overlapping. -/
theorem prefix_suffix_split_regions (size align : Nat) (b : BSlice)
    (hs : size ≤ b.data.length)
    (ha1 : alignedTo b.addr align = true)
    (ha2 : alignedTo (b.addr + (b.data.length - size)) align = true) :
    sizedFromPrefix size align b =
      .ok (⟨b.addr, b.data.take size⟩, ⟨b.addr + size, b.data.drop size⟩)
    ∧ sizedFromSuffix size align b =
      .ok (⟨b.addr, b.data.take (b.data.length - size)⟩,
           ⟨b.addr + (b.data.length - size), b.data.drop (b.data.length - size)⟩)
    ∧ (b.data.length = 2 * size → 0 < size →
        (BSlice.mk b.addr (b.data.take size) ≠
          BSlice.mk (b.addr + (b.data.length - size)) (b.data.drop (b.data.length - size)))
        ∧ disjointRegions ⟨b.addr, b.data.take size⟩
            ⟨b.addr + (b.data.length - size), b.data.drop (b.data.length - size)⟩ = true) := by
  refine ⟨?_, ?_, fun hL hpos => ?_⟩
  · simp [sizedFromPrefix, trySplitAt, Nat.not_lt.mpr hs, ha1, hs]
  · simp [sizedFromSuffix, trySplitAt, hs, Nat.sub_le, ha2]
  · constructor
    · intro hcontra
      have haddr : b.addr = b.addr + (b.data.length - size) := congrArg BSlice.addr hcontra
      omega
    · simp only [disjointRegions, Bool.or_eq_true, decide_eq_true_eq]
      left
      have : (b.data.take size).length = size := List.length_take_of_le hs
      omega

/-- Witness for C4: a 4-byte aligned buffer with `S = 2`, `L = 4 = 2*S`:
prefix mode matches bytes 0-1 with remainder 2-3; suffix mode matches bytes
2-3 with remainder 0-1; the matched regions differ and are disjoint. -/
theorem prefix_suffix_split_regions_witness :
    sizedFromPrefix 2 1 ⟨0, [1, 2, 3, 4]⟩ = .ok (⟨0, [1, 2]⟩, ⟨2, [3, 4]⟩)
    ∧ sizedFromSuffix 2 1 ⟨0, [1, 2, 3, 4]⟩ = .ok (⟨0, [1, 2]⟩, ⟨2, [3, 4]⟩)
    ∧ (BSlice.mk 0 [1, 2] ≠ BSlice.mk 2 [3, 4])
    ∧ disjointRegions ⟨0, [1, 2]⟩ ⟨2, [3, 4]⟩ = true := by
  have h := prefix_suffix_split_regions 2 1 ⟨0, [1, 2, 3, 4]⟩
    (by decide) (by decide) (by decide)
  have h3 := h.2.2 (by decide) (by decide)
  exact ⟨by simpa using h.1, by simpa using h.2.1, by simpa using h3.1, by simpa using h3.2⟩

/-- C4 counterexample: for a zero-sized target (`S = 0`) on the empty buffer
(`L = 0 = 2*S`), prefix mode and suffix mode both succeed and produce the
very same matched region `⟨0, []⟩`, so the two modes do not always produce
different matched regions when `L = 2*S`. -/
theorem zero_size_both_modes_coincide :
    sizedFromPrefix 0 1 ⟨0, []⟩ = .ok (⟨0, []⟩, ⟨0, []⟩)
    ∧ sizedFromSuffix 0 1 ⟨0, []⟩ = .ok (⟨0, []⟩, ⟨0, []⟩) := by
  decide

/-- Result of a copy-out read operation: flattens both
`Result<Self, SizeError>` and `Result<Self, CastError>` (whose alignment and
validity arms the source marks `unreachable!()` / `match i {}`); taking such
an arm is the distinguished outcome `panicked`. -/
inductive ReadResult (A : Type) where
  | ok (a : A)
  | sizeErr (src : BSlice)
  | panicked
deriving DecidableEq, Repr

/-- Embeds `FromBytes::read_from` (src/lib.rs lines 3239-3249): cast via
`Ref::<_, Unalign<Self>>::sized_from` and copy the matched bytes out.
Modelled from the spec: `Unalign<T>` (in `wrappers.rs`, not under src/)
imposes no alignment requirement — its layout has alignment 1 and `T`'s
size; the spec states a copy-out read cannot produce `AlignmentError` since
it copies rather than references.  The source's
`Err(CastError::Alignment(_)) => unreachable!()` arm and its uninhabited
validity arm are embedded as `panicked`. -/
def readFrom (size : Nat) (b : BSlice) : ReadResult (List Nat) :=
  match sizedFrom size 1 b with
  | .ok r => .ok r.data
  | .sizeErr s => .sizeErr s
  | .alignmentErr _ => .panicked
  | .validityErr _ => .panicked

/-- Embeds `FromBytes::read_from_prefix` (src/lib.rs lines 3284-3294): cast
via `Ref::<_, Unalign<Self>>::sized_from_prefix`, copy the matched prefix
out and discard the rest; alignment/validity arms as in `readFrom`. -/
def readFromPrefix (size : Nat) (b : BSlice) : ReadResult (List Nat) :=
  match sizedFromPrefix size 1 b with
  | .ok (r, _) => .ok r.data
  | .sizeErr s => .sizeErr s
  | .alignmentErr _ => .panicked
  | .validityErr _ => .panicked

/-- Embeds `FromBytes::read_from_suffix` (src/lib.rs lines 3323-3333): cast
via `Ref::<_, Unalign<Self>>::sized_from_suffix`, copy the matched suffix
out and discard the rest; alignment/validity arms as in `readFrom`. -/
def readFromSuffix (size : Nat) (b : BSlice) : ReadResult (List Nat) :=
  match sizedFromSuffix size 1 b with
  | .ok (_, r) => .ok r.data
  | .sizeErr s => .sizeErr s
  | .alignmentErr _ => .panicked
  | .validityErr _ => .panicked

/-- For an alignment-1 target, `sized_from` either rejects with a size error
carrying the input, or succeeds on the whole input. -/
theorem sizedFrom_one_cases (size : Nat) (b : BSlice) :
    sizedFrom size 1 b = .sizeErr b ∨ sizedFrom size 1 b = .ok b := by
  unfold sizedFrom
  by_cases h : b.data.length ≠ size
  · rw [if_pos h]; exact Or.inl rfl
  · rw [if_neg h]
    have ha : alignedTo b.addr 1 = true := by simp [alignedTo, Nat.mod_one]
    rw [ha]
    simp

/-- For an alignment-1 target, `sized_from_prefix` either rejects with a
size error carrying the input, or splits the input at `size`. -/
theorem sizedFromPrefix_one_cases (size : Nat) (b : BSlice) :
    sizedFromPrefix size 1 b = .sizeErr b
    ∨ sizedFromPrefix size 1 b =
        .ok (⟨b.addr, b.data.take size⟩, ⟨b.addr + size, b.data.drop size⟩) := by
  unfold sizedFromPrefix
  by_cases h : b.data.length < size
  · rw [if_pos h]; exact Or.inl rfl
  · rw [if_neg h]
    have ha : alignedTo b.addr 1 = true := by simp [alignedTo, Nat.mod_one]
    rw [ha]
    have hsplit : trySplitAt b size =
        .ok ⟨b.addr, b.data.take size⟩ ⟨b.addr + size, b.data.drop size⟩ := by
      unfold trySplitAt
      rw [if_pos (Nat.le_of_not_lt h)]
    rw [hsplit]
    simp

/-- For an alignment-1 target, `sized_from_suffix` either rejects with a
size error carrying the input, or splits the input at `len - size`. -/
theorem sizedFromSuffix_one_cases (size : Nat) (b : BSlice) :
    sizedFromSuffix size 1 b = .sizeErr b
    ∨ sizedFromSuffix size 1 b =
        .ok (⟨b.addr, b.data.take (b.data.length - size)⟩,
             ⟨b.addr + (b.data.length - size), b.data.drop (b.data.length - size)⟩) := by
  unfold sizedFromSuffix
  by_cases h : size ≤ b.data.length
  · rw [if_pos h]
    have hsplit : trySplitAt b (b.data.length - size) =
        .ok ⟨b.addr, b.data.take (b.data.length - size)⟩
            ⟨b.addr + (b.data.length - size), b.data.drop (b.data.length - size)⟩ := by
      unfold trySplitAt
      rw [if_pos (Nat.sub_le _ _)]
    rw [hsplit]
    have ha : alignedTo (b.addr + (b.data.length - size)) 1 = true := by simp [alignedTo, Nat.mod_one]
    simp [ha]
  · rw [if_neg h]; exact Or.inl rfl

/-- C9: the copy-out operations `read_from`, `read_from_prefix` and
`read_from_suffix` never reach their alignment-error arm (embedded as
`panicked`): casting through the alignment-1 `Unalign` wrapper, the
underlying `sized_from` family never returns an `AlignmentError`. -/
theorem read_ops_no_alignment_error (size : Nat) (b : BSlice) :
    readFrom size b ≠ .panicked
    ∧ readFromPrefix size b ≠ .panicked
    ∧ readFromSuffix size b ≠ .panicked
    ∧ (∀ s, sizedFrom size 1 b ≠ .alignmentErr s)
    ∧ (∀ s, sizedFromPrefix size 1 b ≠ .alignmentErr s)
    ∧ (∀ s, sizedFromSuffix size 1 b ≠ .alignmentErr s) := by
  refine ⟨?_, ?_, ?_, fun s => ?_, fun s => ?_, fun s => ?_⟩
  · rcases sizedFrom_one_cases size b with h | h <;> simp [readFrom, h]
  · rcases sizedFromPrefix_one_cases size b with h | h <;> simp [readFromPrefix, h]
  · rcases sizedFromSuffix_one_cases size b with h | h <;> simp [readFromSuffix, h]
  · rcases sizedFrom_one_cases size b with h | h <;> simp [h]
  · rcases sizedFromPrefix_one_cases size b with h | h <;> simp [h]
  · rcases sizedFromSuffix_one_cases size b with h | h <;> simp [h]

/-- `try_split_at` either splits at `mid` (when `mid` is within bounds) or
returns the whole input as the error payload. -/
theorem trySplitAt_cases (b : BSlice) (mid : Nat) :
    trySplitAt b mid = .ok ⟨b.addr, b.data.take mid⟩ ⟨b.addr + mid, b.data.drop mid⟩
    ∨ trySplitAt b mid = .err b := by
  unfold trySplitAt
  split
  · exact Or.inl rfl
  · exact Or.inr rfl

/-- Result of `TryFromBytes::try_read_from`: the copied-out value, a size or
validity error carrying a byte slice, or a reached panic arm. -/
inductive TryReadResult where
  | ok (v : List Nat)
  | sizeErr (src : BSlice)
  | validityErr (src : BSlice)
  | panicked
deriving DecidableEq, Repr

/-- Embeds `TryFromBytes::try_read_from` (src/lib.rs lines 1673-1708): copy
the bytes out via `MaybeUninit::<Self>::read_from` (the size-checked,
alignment-1 copy embedded as `readFrom`), propagating its size error; then
run the type's validity predicate on the copied candidate and reject with
`ValidityError::new(bytes)` — carrying the original input — when it fails;
otherwise the candidate bytes are the value. -/
def tryReadFrom (size : Nat) (isValid : List Nat → Bool) (b : BSlice) : TryReadResult :=
  match readFrom size b with
  | .sizeErr s => .sizeErr s
  | .panicked => .panicked
  | .ok v => if !isValid v then .validityErr b else .ok v

/-- Embeds the `bool` validity predicate (src/lib.rs line 4162):
`|byte| *byte.unaligned_as_ref() < 2`, applied to the single byte of the
candidate. -/
def boolIsBitValid (bytes : List Nat) : Bool :=
  match bytes with
  | [byte] => decide (byte < 2)
  | _ => false

/-- The value of a one-byte `bool` candidate: byte 0x00 is `false`, byte
0x01 is `true` (Rust's `bool` representation, quoted in src/lib.rs lines
4156-4159). -/
def decodeBool (bytes : List Nat) : Option Bool :=
  match bytes with
  | [0] => some false
  | [1] => some true
  | _ => none

/-- C5: the single-byte `bool` validity predicate accepts exactly the byte
values 0 and 1 and rejects 2 through 255; `try_read_from` on the one-byte
input `[2]` yields a `ValidityError`, while on `[1]` it succeeds and the
value is `true`. -/
theorem bool_validity_boundary :
    (∀ x : Fin 256, boolIsBitValid [x.val] = decide (x.val = 0 ∨ x.val = 1))
    ∧ tryReadFrom 1 boolIsBitValid ⟨0, [2]⟩ = .validityErr ⟨0, [2]⟩
    ∧ tryReadFrom 1 boolIsBitValid ⟨0, [1]⟩ = .ok [1]
    ∧ decodeBool [1] = some true := by
  refine ⟨fun x => ?_, by decide, by decide, by decide⟩
  show decide (x.val < 2) = decide (x.val = 0 ∨ x.val = 1)
  rw [decide_eq_decide]
  omega

/-- Embeds `Ref::read` (src/ref.rs lines 748-762): `ptr::read` copies the
first `size_of::<T>()` bytes of the view's slice out as the value (a value
of a `T: FromBytes + IntoBytes` type is identified with its byte list). -/
def refRead (size : Nat) (r : BSlice) : List Nat :=
  r.data.take size

/-- Embeds `Ref::write` (src/ref.rs lines 769-783): `ptr::write` overwrites
the first `size_of::<T>()` bytes of the view's slice with the value's
bytes. -/
def refWrite (r : BSlice) (v : List Nat) : BSlice :=
  ⟨r.addr, v ++ r.data.drop v.length⟩

/-- C6: for a validly constructed typed view `r` (its slice length equals
the target size, per the `Ref` field invariant) and any value `v` of that
size, `write(v)` followed by `read()` returns a value bit-identical to
`v`. -/
theorem write_read_roundtrip (size : Nat) (r : BSlice) (v : List Nat)
    (hr : r.data.length = size) (hv : v.length = size) :
    refRead size (refWrite r v) = v ∧ (refWrite r v).data.length = size := by
  constructor
  · unfold refRead refWrite
    rw [← hv]
    exact List.take_left v (r.data.drop v.length)
  · unfold refWrite
    simp only [List.length_append, List.length_drop]
    omega

/-- Witness for C6: writing the two bytes `[7, 8]` through a two-byte view
and reading back returns `[7, 8]`. -/
theorem write_read_roundtrip_witness :
    (BSlice.mk 4 [0, 0]).data.length = 2
    ∧ (refRead 2 (refWrite ⟨4, [0, 0]⟩ [7, 8]) = [7, 8]
       ∧ (refWrite ⟨4, [0, 0]⟩ [7, 8]).data.length = 2) :=
  ⟨by decide, write_read_roundtrip 2 ⟨4, [0, 0]⟩ [7, 8] (by decide) (by decide)⟩

/-- C7 counterexample: `sized_from_suffix` for a 2-byte, 2-aligned target on
the 3-byte buffer at address 0 fails the alignment check at suffix address 1
and the returned error carries only the two-byte suffix `⟨1, [9, 9]⟩`, not
the original three-byte input, so the caller cannot recover the exact input
from that error. -/
theorem suffix_alignment_error_carries_suffix :
    sizedFromSuffix 2 2 ⟨0, [9, 9, 9]⟩ = .alignmentErr ⟨1, [9, 9]⟩
    ∧ BSlice.mk 1 [9, 9] ≠ BSlice.mk 0 [9, 9, 9] := by
  decide

/-- C7 (amended): no failure mutates the buffer, and the error value of
`sized_from`, `sized_from_prefix` and `try_read_from` carries back the whole
original input; `sized_from_suffix`'s size errors also carry the whole
input, but its alignment error carries only the rejected suffix candidate
(the final `size` bytes of the input). -/
theorem errors_carry_rejected_input (size align : Nat) (isValid : List Nat → Bool)
    (b : BSlice) :
    (∀ s, sizedFrom size align b = .sizeErr s → s = b)
    ∧ (∀ s, sizedFrom size align b = .alignmentErr s → s = b)
    ∧ (∀ s, sizedFromPrefix size align b = .sizeErr s → s = b)
    ∧ (∀ s, sizedFromPrefix size align b = .alignmentErr s → s = b)
    ∧ (∀ s, sizedFromSuffix size align b = .sizeErr s → s = b)
    ∧ (∀ s, sizedFromSuffix size align b = .alignmentErr s →
        s = ⟨b.addr + (b.data.length - size), b.data.drop (b.data.length - size)⟩)
    ∧ (∀ s, tryReadFrom size isValid b = .sizeErr s → s = b)
    ∧ (∀ s, tryReadFrom size isValid b = .validityErr s → s = b) := by
  refine ⟨fun s h => ?_, fun s h => ?_, fun s h => ?_, fun s h => ?_,
    fun s h => ?_, fun s h => ?_, fun s h => ?_, fun s h => ?_⟩
  · unfold sizedFrom at h
    split at h
    · simp_all
    · split at h <;> simp_all
  · unfold sizedFrom at h
    split at h
    · simp_all
    · split at h <;> simp_all
  · unfold sizedFromPrefix at h
    split at h
    · simp_all
    · split at h
      · simp_all
      · rcases trySplitAt_cases b size with hs | hs <;> rw [hs] at h <;> simp_all
  · unfold sizedFromPrefix at h
    split at h
    · simp_all
    · split at h
      · simp_all
      · rcases trySplitAt_cases b size with hs | hs <;> rw [hs] at h <;> simp_all
  · unfold sizedFromSuffix at h
    split at h
    · rcases trySplitAt_cases b (b.data.length - size) with hs | hs <;>
        rw [hs] at h
      · simp only at h
        split at h <;> simp_all
      · simp_all
    · simp_all
  · unfold sizedFromSuffix at h
    split at h
    · rcases trySplitAt_cases b (b.data.length - size) with hs | hs <;>
        rw [hs] at h
      · simp only at h
        split at h <;> simp_all
      · simp_all
    · simp_all
  · unfold tryReadFrom readFrom at h
    rcases sizedFrom_one_cases size b with hc | hc <;> rw [hc] at h
    · simp_all
    · simp only at h
      split at h <;> simp_all
  · unfold tryReadFrom readFrom at h
    rcases sizedFrom_one_cases size b with hc | hc <;> rw [hc] at h
    · simp_all
    · simp only at h
      split at h <;> simp_all

/-- Witness for C7: `sized_from` on a too-short buffer fails with a size
error whose payload is the original buffer. -/
theorem errors_carry_rejected_input_witness :
    sizedFrom 2 2 ⟨1, [5]⟩ = .sizeErr ⟨1, [5]⟩ ∧ BSlice.mk 1 [5] = BSlice.mk 1 [5] :=
  ⟨by decide, (errors_carry_rejected_input 2 2 (fun _ => true) ⟨1, [5]⟩).1 ⟨1, [5]⟩ (by decide)⟩

/-- Embeds `IntoBytes::write_to` (src/lib.rs lines 3738-3747): if the
destination length differs from the value's size, fail (returning
`SizeError`, modelled as `false`) leaving the destination unchanged; else
`copy_from_slice` replaces the whole destination with the value's bytes.
The result pairs the success flag with the destination's final contents. -/
def writeTo (v dst : List Nat) : Bool × List Nat :=
  if dst.length ≠ v.length then (false, dst)
  else (true, v)

/-- Embeds `IntoBytes::write_to_prefix` (src/lib.rs lines 3798-3810):
`bytes.get_mut(..size)` succeeds exactly when `size <= bytes.len()`, in
which case the first `size` bytes are overwritten with the value's bytes;
otherwise fail leaving the destination unchanged. -/
def writeToPrefix (v dst : List Nat) : Bool × List Nat :=
  if v.length ≤ dst.length then (true, v ++ dst.drop v.length)
  else (false, dst)

/-- Embeds `IntoBytes::write_to_suffix` (src/lib.rs lines 3868-3888):
`bytes.len().checked_sub(size)` fails when the destination is too small;
then `bytes.get_mut(start..)` (defensively re-checked in the source) yields
the final `size` bytes, which are overwritten with the value's bytes. -/
def writeToSuffix (v dst : List Nat) : Bool × List Nat :=
  if v.length ≤ dst.length then
    if dst.length - v.length ≤ dst.length then
      (true, dst.take (dst.length - v.length) ++ v)
    else (false, dst)
  else (false, dst)

/-- C10: `write_to` succeeds exactly when the destination length equals the
value's size — a strictly larger destination fails with a `SizeError` and
leaves every destination byte unchanged — unlike `write_to_prefix` and
`write_to_suffix`, which accept any destination at least as large as the
value. -/
theorem write_to_exact_length_only (v dst : List Nat) :
    ((writeTo v dst).1 = true ↔ dst.length = v.length)
    ∧ (v.length < dst.length → writeTo v dst = (false, dst))
    ∧ (dst.length < v.length → writeTo v dst = (false, dst))
    ∧ (v.length ≤ dst.length → writeToPrefix v dst = (true, v ++ dst.drop v.length))
    ∧ (v.length ≤ dst.length →
        writeToSuffix v dst = (true, dst.take (dst.length - v.length) ++ v))
    ∧ (dst.length < v.length →
        writeToPrefix v dst = (false, dst) ∧ writeToSuffix v dst = (false, dst)) := by
  refine ⟨?_, fun h => ?_, fun h => ?_, fun h => ?_, fun h => ?_, fun h => ?_⟩
  · unfold writeTo
    split <;> simp_all
  · unfold writeTo
    rw [if_pos (by omega)]
  · unfold writeTo
    rw [if_pos (by omega)]
  · unfold writeToPrefix
    rw [if_pos h]
  · unfold writeToSuffix
    rw [if_pos h, if_pos (Nat.sub_le _ _)]
  · unfold writeToPrefix writeToSuffix
    rw [if_neg (by omega), if_neg (by omega)]
    exact ⟨rfl, rfl⟩

/-- Witness for C10: value `[1]` against destinations `[0, 0]` (too large
for `write_to`, fine for the other two) and `[]` (too small for all). -/
theorem write_to_exact_length_only_witness :
    writeTo [1] [0, 0] = (false, [0, 0])
    ∧ writeToPrefix [1] [0, 0] = (true, [1, 0])
    ∧ writeToSuffix [1] [0, 0] = (true, [0, 1])
    ∧ writeTo [1] [1] = (true, [1])
    ∧ writeToPrefix [1] [] = (false, []) := by
  have h := write_to_exact_length_only [1] [0, 0]
  have h2 := write_to_exact_length_only [1] []
  refine ⟨h.2.1 (by decide), ?_, ?_, by decide, (h2.2.2.2.2.2 (by decide)).1⟩
  · have := h.2.2.2.1 (by decide)
    simpa using this
  · have := h.2.2.2.2.1 (by decide)
    simpa using this

/-- Outcome of the `Unit` (fixed-size) metadata size computation: either the
function returns a value (`returns`), or it halts the program (`halts`).
The Rust return type `Option<usize>` is embedded inside `returns`; `halts`
is available to express a panicking implementation. -/
inductive MetaOutcome where
  | halts
  | returns (r : Option Nat)
deriving DecidableEq, Repr

/-- Embeds `<() as PointerMetadata>::size_for_metadata` (src/lib.rs lines
576-584): for a `Sized` layout return `Some(size)`; for a `SliceDst` layout
the source deliberately returns `None` rather than `unreachable!()`, "to
avoid generating panic paths". -/
def unitSizeForMetadata (layout : DstLayout) : MetaOutcome :=
  match layout.size_info with
  | .sized size => .returns (some size)
  | .sliceDst _ _ => .returns none

/-- C8 counterexample: invoking the `Unit` metadata size computation on a
concrete `SliceDst` layout does not halt the program: it returns the
recoverable result `None`. -/
theorem unit_metadata_slice_dst_counterexample :
    unitSizeForMetadata ⟨2, .sliceDst 0 1⟩ = .returns none
    ∧ MetaOutcome.returns none ≠ MetaOutcome.halts := by
  decide

/-- C8 (amended): invoking the `Unit` metadata size computation against any
`SliceDst` layout is a caller contract violation, but the implementation
returns the recoverable result `None` instead of halting (the source
comments that the branch is unreachable and deliberately avoids a panic
path). -/
theorem unit_metadata_slice_dst_no_halt (align offset elemSize : Nat) :
    unitSizeForMetadata ⟨align, .sliceDst offset elemSize⟩ = .returns none
    ∧ unitSizeForMetadata ⟨align, .sliceDst offset elemSize⟩ ≠ .halts := by
  exact ⟨rfl, by simp [unitSizeForMetadata]⟩

/-- `usize::MAX` of the embedded 64-bit machine-integer model. -/
def usizeMax : Nat := 2 ^ 64 - 1

/-- Embeds `usize::checked_mul`: `none` exactly when the product exceeds
`usize::MAX`. -/
def checkedMul (a b : Nat) : Option Nat :=
  if a * b ≤ usizeMax then some (a * b) else none

/-- Embeds `usize::checked_add`: `none` exactly when the sum exceeds
`usize::MAX`. -/
def checkedAdd (a b : Nat) : Option Nat :=
  if a + b ≤ usizeMax then some (a + b) else none

/-- Modelled from the spec: `util::padding_needed_for` lives in `util.rs`,
not under src/.  Per the spec's round_up rule it is the smallest `p ≥ 0`
such that `len + p` is a multiple of `align`. -/
def paddingNeededFor (len align : Nat) : Nat :=
  (align - len % align) % align

/-- `round_up` as the spec uses it: `len` plus the padding needed to reach
the next multiple of `align`. -/
def roundUp (len align : Nat) : Nat :=
  len + paddingNeededFor len align

/-- Embeds `<usize as PointerMetadata>::size_for_metadata` (src/lib.rs lines
593-605): for a `SliceDst` layout, `elem_size.checked_mul(count)?`, then
`offset.checked_add(slice_len)?`, then a final `checked_add` of the padding
needed to reach alignment; for a `Sized` layout the source deliberately
returns `None` (the branch is unreachable) rather than panic. -/
def usizeSizeForMetadata (count : Nat) (layout : DstLayout) : Option Nat :=
  match layout.size_info with
  | .sliceDst offset elemSize =>
    match checkedMul elemSize count with
    | none => none
    | some sliceLen =>
      match checkedAdd offset sliceLen with
      | none => none
      | some withoutPadding =>
        checkedAdd withoutPadding (paddingNeededFor withoutPadding layout.align)
  | .sized _ => none

/-- Modelled from the spec: required-size determination, step 1 of
`try_cast` (the `Ptr::try_cast_into` family lives in the `pointer` module,
not under src/).  If metadata is supplied it is converted through the
metadata abstraction; else a `Sized` layout's size is used directly; else
(`SliceDst` without explicit metadata) the element count is inferred from
the buffer length (spec §3: metadata is "produced by the caller or inferred
from buffer length") as the largest count whose unpadded size fits, the
required size being the padded total for that count; a zero-width dynamic
element is rejected (the source enforces this at compile time through
`assert_dst_is_not_zst`). -/
def requiredSize (layout : DstLayout) (meta : Option Nat) (len : Nat) : Option Nat :=
  match meta, layout.size_info with
  | some count, _ => usizeSizeForMetadata count layout
  | none, .sized size => some size
  | none, .sliceDst offset elemSize =>
    if elemSize = 0 then none
    else if len < offset then none
    else some (roundUp (offset + elemSize * ((len - offset) / elemSize)) layout.align)

/-- Size check, step 2 of the spec's `try_cast`: `Exact` requires the buffer
length to equal the required size; `Prefix` and `Suffix` require the buffer
to be at least that long. -/
def sizeCheck (ct : CastType) (len req : Nat) : Bool :=
  match ct with
  | .Exact => len == req
  | .Prefix => decide (req ≤ len)
  | .Suffix => decide (req ≤ len)

/-- Candidate region address, step 3 of the spec's `try_cast`: the whole
buffer (`Exact`), its first `req` bytes (`Prefix`), or its last `req` bytes
(`Suffix`). -/
def candidateAddr (ct : CastType) (b : BSlice) (req : Nat) : Nat :=
  match ct with
  | .Suffix => b.addr + (b.data.length - req)
  | _ => b.addr

/-- Modelled from the spec: the cast engine (`Ptr::try_cast_into` in the
`pointer` module, not under src/), following spec §4.3 steps 1-6: determine
the required size (`SizeError` when it cannot be computed), check size
(`SizeError`), choose the candidate region, check its alignment
(`AlignmentError`), split, and return (candidate, remainder); size and
alignment errors carry back the input buffer. -/
def tryCast (layout : DstLayout) (meta : Option Nat) (ct : CastType) (b : BSlice) :
    CastResult (BSlice × BSlice) :=
  match requiredSize layout meta b.data.length with
  | none => .sizeErr b
  | some req =>
    if sizeCheck ct b.data.length req then
      if alignedTo (candidateAddr ct b req) layout.align then
        match ct with
        | .Exact => .ok (b, ⟨b.addr + b.data.length, []⟩)
        | .Prefix => .ok (⟨b.addr, b.data.take req⟩, ⟨b.addr + req, b.data.drop req⟩)
        | .Suffix => .ok (⟨b.addr + (b.data.length - req), b.data.drop (b.data.length - req)⟩,
                          ⟨b.addr, b.data.take (b.data.length - req)⟩)
      else .alignmentErr b
    else .sizeErr b

/-- Embeds `try_ref_from_prefix_suffix` (src/lib.rs lines 1711-1734): run
the cast engine; on success run the validity predicate on the candidate,
rejecting with a `ValidityError` that carries the candidate's bytes (the
source maps the error source through `as_bytes`); cast-engine errors pass
through unchanged. -/
def tryRefFromPrefixSuffix (isValid : List Nat → Bool) (layout : DstLayout)
    (meta : Option Nat) (ct : CastType) (b : BSlice) : CastResult (BSlice × BSlice) :=
  match tryCast layout meta ct b with
  | .ok (candidate, rest) =>
    if isValid candidate.data then .ok (candidate, rest) else .validityErr candidate
  | .sizeErr s => .sizeErr s
  | .alignmentErr s => .alignmentErr s
  | .validityErr s => .validityErr s

/-- Embeds `Ref::from_prefix_with_elems` (src/ref.rs lines 441-455): compute
the expected length from the explicit element count (`SizeError` on
overflow, or when the buffer is shorter), split there, and run the exact
cast (`Ref::from`, i.e. `try_cast_into_no_leftover`, modelled by `tryCast`
in `Exact` mode with no explicit metadata) on the split-off front part. -/
def fromPrefixWithElems (layout : DstLayout) (count : Nat) (b : BSlice) :
    CastResult (BSlice × BSlice) :=
  match usizeSizeForMetadata count layout with
  | none => .sizeErr b
  | some expectedLen =>
    if b.data.length < expectedLen then .sizeErr b
    else
      match tryCast layout none .Exact ⟨b.addr, b.data.take expectedLen⟩ with
      | .ok (m, _) => .ok (m, ⟨b.addr + expectedLen, b.data.drop expectedLen⟩)
      | .sizeErr s => .sizeErr s
      | .alignmentErr s => .alignmentErr s
      | .validityErr s => .validityErr s

/-- C3: for `Count(count)` metadata against a `SliceDst{offset, elem_size}`
layout, the computed required size is `round_up(offset + elem_size * count,
align)`, and the computation is `None` exactly when that quantity (or one of
the intermediate multiplication/addition results, all bounded by it)
overflows `usize`; concretely, for `offset=2, elem_size=1, align=2`, casting
a 10-byte buffer with explicit count 8 succeeds with required size 10, and
count 9 (required size 12) fails with a `SizeError`. -/
theorem count_metadata_required_size :
    (∀ count offset elemSize align : Nat,
      usizeSizeForMetadata count ⟨align, .sliceDst offset elemSize⟩ =
        if roundUp (offset + elemSize * count) align ≤ usizeMax
        then some (roundUp (offset + elemSize * count) align) else none)
    ∧ usizeSizeForMetadata 8 ⟨2, .sliceDst 2 1⟩ = some 10
    ∧ usizeSizeForMetadata 9 ⟨2, .sliceDst 2 1⟩ = some 12
    ∧ fromPrefixWithElems ⟨2, .sliceDst 2 1⟩ 8 ⟨0, List.replicate 10 7⟩ =
        .ok (⟨0, List.replicate 10 7⟩, ⟨10, []⟩)
    ∧ fromPrefixWithElems ⟨2, .sliceDst 2 1⟩ 9 ⟨0, List.replicate 10 7⟩ =
        .sizeErr ⟨0, List.replicate 10 7⟩ := by
  refine ⟨fun count offset elemSize align => ?_, by decide, by decide, by decide, by decide⟩
  unfold usizeSizeForMetadata checkedMul checkedAdd
  dsimp only
  by_cases h1 : elemSize * count ≤ usizeMax
  · rw [if_pos h1]
    dsimp only
    by_cases h2 : offset + elemSize * count ≤ usizeMax
    · rw [if_pos h2]
      dsimp only
      rfl
    · rw [if_neg h2]
      dsimp only
      have hle : offset + elemSize * count ≤ roundUp (offset + elemSize * count) align :=
        Nat.le_add_right _ _
      rw [if_neg (by omega)]
  · rw [if_neg h1]
    dsimp only
    have hle1 : elemSize * count ≤ offset + elemSize * count := Nat.le_add_left _ _
    have hle2 : offset + elemSize * count ≤ roundUp (offset + elemSize * count) align :=
      Nat.le_add_right _ _
    rw [if_neg (by omega)]

/-- C2: for any layout with alignment `a > 1` and any input whose size check
passes but whose candidate region's address is not a multiple of `a`, the
cast engine yields an `AlignmentError` carrying the input — never a
`ValidityError` and never success — for every validity predicate, which is
therefore only consulted after the size and alignment checks have
succeeded; the sized exact path `Ref::sized_from` behaves the same way. -/
theorem alignment_before_validity (isValid : List Nat → Bool) (layout : DstLayout)
    (meta : Option Nat) (ct : CastType) (b : BSlice) (req : Nat)
    (hreq : requiredSize layout meta b.data.length = some req)
    (hsize : sizeCheck ct b.data.length req = true)
    (halign : 1 < layout.align)
    (hmis : alignedTo (candidateAddr ct b req) layout.align = false) :
    tryCast layout meta ct b = .alignmentErr b
    ∧ tryRefFromPrefixSuffix isValid layout meta ct b = .alignmentErr b
    ∧ (∀ sz al, b.data.length = sz → 1 < al → alignedTo b.addr al = false →
        sizedFrom sz al b = .alignmentErr b) := by
  have h1 : tryCast layout meta ct b = .alignmentErr b := by
    unfold tryCast
    rw [hreq]
    simp only [hsize, if_true, hmis, Bool.false_eq_true, if_false]
  refine ⟨h1, ?_, fun sz al hsz hal hmis2 => ?_⟩
  · unfold tryRefFromPrefixSuffix
    rw [h1]
  · unfold sizedFrom
    rw [if_neg (by omega), hmis2]
    simp

/-- Witness for C2: a 3-byte buffer at odd address 1, prefix-cast to a
2-byte 2-aligned target: the size check passes but the candidate address 1
is misaligned, so the engine and `sized_from` yield an `AlignmentError`
regardless of the validity predicate. -/
theorem alignment_before_validity_witness :
    tryCast ⟨2, .sized 2⟩ none .Prefix ⟨1, [5, 5, 5]⟩ = .alignmentErr ⟨1, [5, 5, 5]⟩
    ∧ tryRefFromPrefixSuffix (fun _ => true) ⟨2, .sized 2⟩ none .Prefix ⟨1, [5, 5, 5]⟩ =
        .alignmentErr ⟨1, [5, 5, 5]⟩
    ∧ sizedFrom 3 2 ⟨1, [5, 5, 5]⟩ = .alignmentErr ⟨1, [5, 5, 5]⟩ := by
  have h := alignment_before_validity (fun _ => true) ⟨2, .sized 2⟩ none .Prefix
    ⟨1, [5, 5, 5]⟩ 2 (by decide) (by decide) (by decide) (by decide)
  exact ⟨h.1, h.2.1, h.2.2 3 2 (by decide) (by decide) (by decide)⟩

end Zerocopy
